import Mathlib

/-!
Shallow embedding of the credential-audit core of the repository
(`security-watchtower/src/check_credentials.rs` and
`security-watchtower/src/events/cron.rs`), together with theorems settling
the spec claims about it.

Modelling conventions:
* `chrono::DateTime<Utc>` timestamps are modelled at day granularity as `Int`;
  `(Utc::now() - last_used).num_days()` becomes `now - last_used` with both in
  days. `Utc::now()` is passed in explicitly as the `now : Int` parameter.
* `HashMap<&str, InactiveAction>` is modelled as an association list where
  `insert` prepends, so lookup (first match) returns the latest insert, as a
  `HashMap` get does.
* Fallible Rust functions returning `Result<T, Error>` become
  `Except String T`; external collaborators (IAM listing calls, the provider
  action clients) are passed in as function arguments.
* Provider side effects are made observable by returning the list of provider
  calls performed alongside results.
-/

namespace Ceres

/-- Rust `Service` enum from check_credentials.rs. -/
inductive Service where
  | Aws
  | Duo
deriving DecidableEq, Repr

/-- The `Display` impl for `Service` ("aws" / "duo"). -/
def Service.display : Service → String
  | .Aws => "aws"
  | .Duo => "duo"

/-- Rust `CredentialKind` enum from check_credentials.rs. -/
inductive CredentialKind where
  | Password
  | ApiKey
  | TwoFA
deriving DecidableEq, Repr

/-- The `Display` impl for `CredentialKind` ("api_key" / "password" / "tfa"). -/
def CredentialKind.display : CredentialKind → String
  | .ApiKey => "api_key"
  | .Password => "password"
  | .TwoFA => "tfa"

/-- Rust `CredentialStatus` enum from check_credentials.rs. -/
inductive CredentialStatus where
  | Enabled
  | Disabled
  | Unknown
deriving DecidableEq, Repr

/-- Rust `Credential` struct from check_credentials.rs. `last_used` is an optional
timestamp in days (see module conventions). -/
structure Credential where
  service : Service
  id : String
  user_name : String
  kind : CredentialKind
  state : CredentialStatus
  last_used : Option Int
  linked_id : Option String
deriving DecidableEq, Repr

/-- Method `Credential::is_aws`. -/
def Credential.is_aws (c : Credential) : Bool :=
  match c.service with
  | .Aws => true
  | _ => false

/-- Method `Credential::is_duo`. -/
def Credential.is_duo (c : Credential) : Bool :=
  match c.service with
  | .Duo => true
  | _ => false

/-- Method `Credential::is_api_key`. -/
def Credential.is_api_key (c : Credential) : Bool :=
  match c.kind with
  | .ApiKey => true
  | _ => false

/-- Method `Credential::is_password`. -/
def Credential.is_password (c : Credential) : Bool :=
  match c.kind with
  | .Password => true
  | _ => false

/-- Method `Credential::is_two_fa`. -/
def Credential.is_two_fa (c : Credential) : Bool :=
  match c.kind with
  | .TwoFA => true
  | _ => false

/-- Rust `InactiveSpec` struct from check_credentials.rs: two public `i64` fields,
no constructor and no validation. -/
structure InactiveSpec where
  disable_threshold_days : Int
  delete_threshold_days : Int
deriving DecidableEq, Repr

/-- Rust `InactiveAction` enum from check_credentials.rs. -/
inductive InactiveAction where
  | Keep
  | Disable
  | Delete
deriving DecidableEq, BEq, Repr

/-- The explicit discriminants of `InactiveAction` in the source
(`Keep = 1, Disable = 2, Delete = 3`), used here as the severity order
Keep < Disable < Delete. -/
def InactiveAction.sev : InactiveAction → Nat
  | .Keep => 1
  | .Disable => 2
  | .Delete => 3

/-- Method `InactiveAction::keep` (`*self == InactiveAction::Keep`). -/
def InactiveAction.keep (a : InactiveAction) : Bool :=
  a == InactiveAction.Keep

/-- Trait method `Inactive::inactive_action` for `Credential`: the inactivity classifier.
`now` stands for `Utc::now()`, in days. -/
def Credential.inactive_action (c : Credential) (now : Int) (spec : InactiveSpec) :
    InactiveAction :=
  match c.last_used with
  | some last_used =>
      let since := now - last_used
      if since > spec.delete_threshold_days then InactiveAction.Delete
      else if since > spec.disable_threshold_days then InactiveAction.Disable
      else InactiveAction.Keep
  | none => InactiveAction.Keep

/-- Rust `InactiveCredential` struct (credential with resolved action). -/
structure InactiveCredential where
  credential : Credential
  action : InactiveAction
deriving DecidableEq, Repr

end Ceres

namespace Ceres

/-- A fixed sample AWS password credential used in concrete evaluations. -/
def sampleCred (lu : Option Int) : Credential :=
  { service := Service.Aws
    id := "AIDAUSER1"
    user_name := "alice"
    kind := CredentialKind.Password
    state := CredentialStatus.Unknown
    last_used := lu
    linked_id := none }

/-- The default spec from config.rs (`disable = 60`, `delete = 180`). -/
def spec60180 : InactiveSpec :=
  { disable_threshold_days := 60, delete_threshold_days := 180 }

/-- C3: classification is total (it is a Lean function) and follows the
strict-comparison cascade: `Keep` when `last_used` is absent; otherwise with
`since = now - last_used`, `Delete` when `since > delete_threshold_days`, else
`Disable` when `since > disable_threshold_days`, else `Keep`; at
`since = disable_threshold_days` (with disable ≤ delete) the result is `Keep`,
and at `since = delete_threshold_days` (when above the disable threshold) the
result is `Disable`. -/
theorem inactive_action_classifies (now : Int) (c : Credential) (spec : InactiveSpec) :
    (c.last_used = none → c.inactive_action now spec = InactiveAction.Keep) ∧
    (∀ lu, c.last_used = some lu →
      (now - lu > spec.delete_threshold_days →
        c.inactive_action now spec = InactiveAction.Delete) ∧
      (now - lu ≤ spec.delete_threshold_days → now - lu > spec.disable_threshold_days →
        c.inactive_action now spec = InactiveAction.Disable) ∧
      (now - lu ≤ spec.delete_threshold_days → now - lu ≤ spec.disable_threshold_days →
        c.inactive_action now spec = InactiveAction.Keep) ∧
      (now - lu = spec.disable_threshold_days →
        spec.disable_threshold_days ≤ spec.delete_threshold_days →
        c.inactive_action now spec = InactiveAction.Keep) ∧
      (now - lu = spec.delete_threshold_days →
        spec.disable_threshold_days < spec.delete_threshold_days →
        c.inactive_action now spec = InactiveAction.Disable)) := by
  constructor
  · intro h
    simp [Credential.inactive_action, h]
  · intro lu h
    refine ⟨?_, ?_, ?_, ?_, ?_⟩ <;> intro h1 <;>
      simp only [Credential.inactive_action, h] <;>
      split_ifs <;> first
        | rfl
        | omega
        | (intro h2; omega)
        | (intro h2; rfl)

/-- Witness for C3 at concrete inputs: absent `last_used` keeps; `since = 100`
with thresholds 60/180 disables; `since = 60` keeps; `since = 180` disables. -/
theorem inactive_action_classifies_witness :
    (sampleCred none).inactive_action 100 spec60180 = InactiveAction.Keep ∧
    (sampleCred (some 0)).inactive_action 100 spec60180 = InactiveAction.Disable ∧
    (sampleCred (some 40)).inactive_action 100 spec60180 = InactiveAction.Keep ∧
    (sampleCred (some (-80))).inactive_action 100 spec60180 = InactiveAction.Disable := by
  refine ⟨?_, ?_, ?_, ?_⟩
  · exact (inactive_action_classifies 100 (sampleCred none) spec60180).1 rfl
  · exact ((inactive_action_classifies 100 (sampleCred (some 0)) spec60180).2 0 rfl).2.1
      (by decide) (by decide)
  · exact ((inactive_action_classifies 100 (sampleCred (some 40)) spec60180).2 40 rfl).2.2.2.1
      (by decide) (by decide)
  · exact ((inactive_action_classifies 100 (sampleCred (some (-80))) spec60180).2 (-80)
      rfl).2.2.2.2 (by decide) (by decide)

/-- The association-list model of the `HashMap<&str, InactiveAction>` matrix:
`insert` prepends, so a lookup returns the latest insert for a key. -/
def matrixInsert (m : List (String × InactiveAction)) (k : String) (v : InactiveAction) :
    List (String × InactiveAction) :=
  (k, v) :: m

/-- Lookup `matrix.get(key)` on the model: first (= most recent) binding for the key. -/
def matrixGet (m : List (String × InactiveAction)) (k : String) : Option InactiveAction :=
  (m.find? (fun p => p.1 == k)).map Prod.snd

/-- The Duo loop of `identify_inactive`: classify each Duo credential and push
it when its action is not Keep. -/
def duoLoop (creds : List Credential) (now : Int) (spec : InactiveSpec) :
    List InactiveCredential :=
  (creds.filter Credential.is_duo).filterMap (fun credential =>
    let action := credential.inactive_action now spec
    if action.keep then none else some { credential := credential, action := action })

/-- The AWS API-key loop of `identify_inactive`: classify each key, push it
when not Keep, and record its action in the matrix — the source inserts under
`credential.id` (the access key's own id), not under `linked_id`. Returns the
final matrix and the pushed results. -/
def apiKeyLoop (creds : List Credential) (now : Int) (spec : InactiveSpec) :
    List (String × InactiveAction) × List InactiveCredential :=
  (creds.filter (fun c => c.is_aws && c.is_api_key)).foldl
    (fun acc credential =>
      let action := credential.inactive_action now spec
      let pushed := if action.keep then acc.2 else acc.2 ++ [{ credential := credential, action := action }]
      (matrixInsert acc.1 credential.id action, pushed))
    ([], [])

/-- The AWS password loop of `identify_inactive`, with the source's control
flow kept verbatim: the `(Keep, _) | (_, Some(Keep)) => break` arm terminates
the whole loop, dropping all later password credentials. -/
def passwordLoop (matrix : List (String × InactiveAction)) (now : Int)
    (spec : InactiveSpec) : List Credential → List InactiveCredential
  | [] => []
  | credential :: rest =>
      let action := credential.inactive_action now spec
      let linked_action := matrixGet matrix credential.id
      match action, linked_action with
      | InactiveAction.Keep, _ | _, some InactiveAction.Keep => []
      | InactiveAction.Disable, none
      | InactiveAction.Disable, some InactiveAction.Disable
      | InactiveAction.Disable, some InactiveAction.Delete =>
          { credential := credential, action := InactiveAction.Disable } ::
            passwordLoop matrix now spec rest
      | InactiveAction.Delete, some InactiveAction.Disable =>
          { credential := credential, action := InactiveAction.Disable } ::
            passwordLoop matrix now spec rest
      | InactiveAction.Delete, none
      | InactiveAction.Delete, some InactiveAction.Delete =>
          { credential := credential, action := InactiveAction.Delete } ::
            passwordLoop matrix now spec rest

/-- Trait method `IdentifyInactive::identify_inactive` for `Vec<Credential>`: Duo loop,
then AWS API-key loop (building the matrix), then AWS password loop. -/
def identify_inactive (creds : List Credential) (now : Int) (spec : InactiveSpec) :
    List InactiveCredential :=
  let duoPart := duoLoop creds now spec
  let (matrix, apiPart) := apiKeyLoop creds now spec
  let pwPart := passwordLoop matrix now spec
    (creds.filter (fun c => c.is_aws && c.is_password))
  duoPart ++ apiPart ++ pwPart

/-- A second AWS password credential, stale enough to warrant Delete. -/
def staleCred : Credential :=
  { service := Service.Aws
    id := "AIDAUSER2"
    user_name := "bob"
    kind := CredentialKind.Password
    state := CredentialStatus.Unknown
    last_used := some (-200)
    linked_id := none }

/-- An AWS access key credential linked (via `linked_id`) to `sampleCred`'s
identity, with `since = 90` (Disable under thresholds 60/180). -/
def linkedKeyCred : Credential :=
  { service := Service.Aws
    id := "AKIAKEY1"
    user_name := "alice"
    kind := CredentialKind.ApiKey
    state := CredentialStatus.Enabled
    last_used := some 10
    linked_id := some "AIDAUSER1" }

/-- C1 (code bug): the password loop's `break` on a Keep combination skips all
subsequent password credentials. With a batch of two AWS passwords where the
first classifies Keep (since = 5) and the second classifies Delete
(since = 300), `identify_inactive` returns no action at all — the second
password receives no resolved action, although its raw classification is
Delete. -/
theorem identify_inactive_keep_break_skips_rest :
    identify_inactive [sampleCred (some 95), staleCred] 100 spec60180 = [] ∧
    staleCred.inactive_action 100 spec60180 = InactiveAction.Delete := by
  refine ⟨by decide, by decide⟩

/-- C2 (code bug): the API-key loop records each key's action under the key's
own id (`matrix.insert(credential.id, action)`), not under its `linked_id`,
so a password's lookup of its own id never finds its keys' actions. With a
key (id "AKIAKEY1", linked_id "AIDAUSER1", raw Disable) and its owning
password (id "AIDAUSER1", raw Delete), the matrix holds the action under
"AKIAKEY1", the lookup under "AIDAUSER1" finds nothing, and the password
resolves to its own Delete instead of min(Delete, Disable) = Disable. -/
theorem api_key_recorded_under_own_id_not_linked :
    (apiKeyLoop [linkedKeyCred, sampleCred (some (-200))] 100 spec60180).1 =
      [("AKIAKEY1", InactiveAction.Disable)] ∧
    matrixGet (apiKeyLoop [linkedKeyCred, sampleCred (some (-200))] 100 spec60180).1
      "AIDAUSER1" = none ∧
    linkedKeyCred.linked_id = some "AIDAUSER1" ∧
    identify_inactive [linkedKeyCred, sampleCred (some (-200))] 100 spec60180 =
      [{ credential := linkedKeyCred, action := InactiveAction.Disable },
       { credential := sampleCred (some (-200)), action := InactiveAction.Delete }] := by
  refine ⟨by decide, by decide, by decide, by decide⟩

/-- The distinct provider operations reachable from `apply`'s match
(iam::disable_access_key, iam::delete_access_key, iam::disable_user,
iam::delete_user, duo.disable_user, duo.delete_user). -/
inductive ProviderOp where
  | DisableAccessKey
  | DeleteAccessKey
  | DisableUser
  | DeleteUser
  | DuoDisableUser
  | DuoDeleteUser
deriving DecidableEq, Repr

/-- A provider call as performed by `apply`: operation, credential id, and
user name. -/
structure Call where
  op : ProviderOp
  id : String
  user_name : String
deriving DecidableEq, Repr

/-- The provider action clients, abstracted as an oracle: `true` means the
call returns `Ok`, `false` means it returns an `Err`. -/
abbrev Provider := ProviderOp → String → String → Bool

/-- The match of `ApplyInactiveAction::apply` over `(service, kind, action)`:
which provider operation is invoked; `none` is the `_ => Ok(())` catch-all
(no call at all). -/
def applyOp : Service → CredentialKind → InactiveAction → Option ProviderOp
  | .Aws, .ApiKey, .Disable => some .DisableAccessKey
  | .Aws, .ApiKey, .Delete => some .DeleteAccessKey
  | .Aws, .Password, .Disable => some .DisableUser
  | .Aws, .Password, .Delete => some .DeleteUser
  | .Duo, .TwoFA, .Disable => some .DuoDisableUser
  | .Duo, .TwoFA, .Delete => some .DuoDeleteUser
  | _, _, _ => none

/-- Trait method `ApplyInactiveAction::apply` for `InactiveCredential`: performs at most
one provider call and returns its result (`true` = `Ok(())`); combinations
outside the match's six explicit arms perform no call and return `Ok(())`.
The calls performed are returned for observability. -/
def InactiveCredential.apply (ic : InactiveCredential) (provider : Provider) :
    List Call × Bool :=
  match applyOp ic.credential.service ic.credential.kind ic.action with
  | none => ([], true)
  | some op =>
      ([{ op := op, id := ic.credential.id, user_name := ic.credential.user_name }],
       provider op ic.credential.id ic.credential.user_name)

/-- Trait method `ApplyInactiveAction::dry_run` for `InactiveCredential`: only logs (not
modelled) and always returns `Ok(())`; performs no provider call. -/
def InactiveCredential.dry_run (_ic : InactiveCredential) : List Call × Bool :=
  ([], true)

/-- Rust `CredentialStats` struct from events/cron.rs. -/
structure CredentialStats where
  total : Nat
  kept : Nat
  disabled : Nat
  deleted : Nat
  failed : Nat
deriving DecidableEq, Repr

/-- Rust `CredentialsConfig` fields used by `get_credentials` (config.rs):
thresholds, the dry-run/apply switch, and the whitelist (a `HashSet<String>`,
modelled as a list queried by membership). -/
structure CredentialsConfig where
  disable_threshold_days : Int
  delete_threshold_days : Int
  actions_enabled : Bool
  whitelist : List String
deriving DecidableEq, Repr

/-- Method `WhiteListKey::whitelist_key`: `format!("{}:{}:{}", service, kind, id)`. -/
def Credential.whitelist_key (c : Credential) : String :=
  c.service.display ++ ":" ++ c.kind.display ++ ":" ++ c.id

/-- The construction of `InactiveSpec` performed in `get_credentials`
(events/cron.rs): a plain struct literal copying the config thresholds,
with no validation and no failure path. -/
def mk_inactive_spec (config : CredentialsConfig) : InactiveSpec :=
  { disable_threshold_days := config.disable_threshold_days
    delete_threshold_days := config.delete_threshold_days }

/-- One iteration of the `for ic in &inactives` loop of `get_credentials`:
whitelist check (skip via `continue`), then either `apply` (counting
disabled/deleted on success, failed on error) or `dry_run` (no call, no
counter change). The accumulator carries the stats and the provider calls
performed so far. -/
def execStep (provider : Provider) (config : CredentialsConfig)
    (acc : CredentialStats × List Call) (ic : InactiveCredential) :
    CredentialStats × List Call :=
  let (stats, calls) := acc
  if config.whitelist.contains ic.credential.whitelist_key then
    (stats, calls)
  else if config.actions_enabled then
    let (made, ok) := ic.apply provider
    if ok then
      let stats :=
        match ic.action with
        | .Disable => { stats with disabled := stats.disabled + 1 }
        | .Delete => { stats with deleted := stats.deleted + 1 }
        | .Keep => stats
      (stats, calls ++ made)
    else
      ({ stats with failed := stats.failed + 1 }, calls ++ made)
  else
    let _ := ic.dry_run
    (stats, calls)

/-- The statistics/execution part of `get_credentials` (events/cron.rs),
starting from the already-retrieved credential batch: resolve inactives via
`identify_inactive`, initialize stats with `total = credentials.len()` and
`kept = credentials.len() - inactives.len()`, then run the per-credential
loop. Returns the stats and all provider calls performed. -/
def get_credentials (provider : Provider) (config : CredentialsConfig)
    (now : Int) (credentials : List Credential) : CredentialStats × List Call :=
  let inactives := identify_inactive credentials now (mk_inactive_spec config)
  let stats : CredentialStats :=
    { total := credentials.length
      kept := credentials.length - inactives.length
      disabled := 0
      deleted := 0
      failed := 0 }
  inactives.foldl (execStep provider config) (stats, [])

/-- C9: classification is monotone in inactivity. For two credentials
identical except for their last-used timestamps, and any spec, if A's days
since last use are ≥ B's, then A's classified action is ≥ B's in the severity
order Keep (1) < Disable (2) < Delete (3). -/
theorem inactive_action_monotone (now : Int) (spec : InactiveSpec)
    (a b : Credential) (la lb : Int)
    (ha : a.last_used = some la) (hb : b.last_used = some lb)
    (h : now - lb ≤ now - la) :
    (b.inactive_action now spec).sev ≤ (a.inactive_action now spec).sev := by
  simp only [Credential.inactive_action, ha, hb]
  split_ifs <;> simp [InactiveAction.sev] <;> omega

/-- Witness for C9: since 300 vs since 100 under thresholds 60/180 gives
Delete ≥ Disable. -/
theorem inactive_action_monotone_witness :
    ((sampleCred (some 0)).inactive_action 100 spec60180).sev ≤
      ((sampleCred (some (-200))).inactive_action 100 spec60180).sev :=
  inactive_action_monotone 100 spec60180 (sampleCred (some (-200))) (sampleCred (some 0))
    (-200) 0 rfl rfl (by decide)

/-- Struct `iam::User`, restricted to the fields the conversion reads. -/
structure IamUser where
  user_id : String
  user_name : String
  password_last_used : Option Int
deriving DecidableEq, Repr

/-- Struct `iam::AccessKeyMetadata`, restricted to the fields the pipeline reads. -/
structure AccessKeyMetadata where
  access_key_id : String
  user_name : String
deriving DecidableEq, Repr

/-- Enum `iam::AccessKeyMetadataStatus`. -/
inductive AccessKeyMetadataStatus where
  | Active
  | Inactive
deriving DecidableEq, Repr

/-- Struct `iam::AccessKeyLastUsed`, restricted to the fields the conversion reads. -/
structure AccessKeyLastUsed where
  access_key_id : String
  user_name : String
  user_id : String
  status : AccessKeyMetadataStatus
  last_used_date : Int
deriving DecidableEq, Repr

/-- Conversion `From<iam::User> for Credential`. -/
def credentialOfUser (user : IamUser) : Credential :=
  { service := Service.Aws
    id := user.user_id
    user_name := user.user_name
    kind := CredentialKind.Password
    state := CredentialStatus.Unknown
    last_used := user.password_last_used
    linked_id := none }

/-- Conversion `From<iam::AccessKeyLastUsed> for Credential`. -/
def credentialOfKey (key : AccessKeyLastUsed) : Credential :=
  { service := Service.Aws
    id := key.access_key_id
    user_name := key.user_name
    kind := CredentialKind.ApiKey
    state :=
      match key.status with
      | .Active => CredentialStatus.Enabled
      | .Inactive => CredentialStatus.Disabled
    last_used := some key.last_used_date
    linked_id := some key.user_id }

/-- Function `check_aws_credentials` (security-watchtower), with the IAM client calls
abstracted as arguments. Rust's iterator `flatten` over `Result` yields the
`Ok` content and silently drops an `Err`, and
`.map(list_access_last_used).filter(|x| x.is_ok()).flatten()` keeps only the
successful per-key look-ups. -/
def check_aws_credentials (list_users : Except String (List IamUser))
    (list_access_keys_for_user : IamUser → Except String (List AccessKeyMetadata))
    (list_access_last_used : AccessKeyMetadata → Except String AccessKeyLastUsed) :
    Except String (List Credential) :=
  match list_users with
  | Except.error e => Except.error e
  | Except.ok users =>
      let credentials := users.map credentialOfUser
      let keys := (users.map (fun u => list_access_keys_for_user u)).flatMap
        (fun r =>
          match r with
          | Except.ok ks => ks
          | Except.error _ => [])
      let access_keys := (keys.map (fun k => list_access_last_used k)).filterMap
        (fun r =>
          match r with
          | Except.ok v => some v
          | Except.error _ => none)
      Except.ok (credentials ++ access_keys.map credentialOfKey)

/-- A sample IAM user for concrete evaluations. -/
def u1 : IamUser :=
  { user_id := "AIDAUSER1", user_name := "alice", password_last_used := some 95 }

/-- A sample access-key metadata record for concrete evaluations. -/
def k1meta : AccessKeyMetadata :=
  { access_key_id := "AKIAKEY1", user_name := "alice" }

/-- C7 (code bug): a failed per-key `list_access_last_used` look-up is
silently dropped (`.filter(|x| x.is_ok())`), not surfaced: with one user
whose single access key's look-up fails, `check_aws_credentials` returns
`Ok` with only the password credential — the run does not fail and the key
vanishes from the audited set. -/
theorem check_aws_credentials_drops_failed_lookup :
    check_aws_credentials (Except.ok [u1]) (fun _ => Except.ok [k1meta])
      (fun _ => Except.error "timeout") = Except.ok [credentialOfUser u1] := by
  rfl

/-- A provider oracle whose calls all succeed. -/
def providerAllOk : Provider := fun _ _ _ => true

/-- Apply-mode configuration with thresholds 60/180 and an empty whitelist. -/
def applyConfig : CredentialsConfig :=
  { disable_threshold_days := 60
    delete_threshold_days := 180
    actions_enabled := true
    whitelist := [] }

/-- Dry-run configuration with thresholds 60/180 and an empty whitelist. -/
def dryConfig : CredentialsConfig :=
  { disable_threshold_days := 60
    delete_threshold_days := 180
    actions_enabled := false
    whitelist := [] }

/-- Apply-mode configuration whitelisting `staleCred`
(key "aws:password:AIDAUSER2"). -/
def wlConfig : CredentialsConfig :=
  { disable_threshold_days := 60
    delete_threshold_days := 180
    actions_enabled := true
    whitelist := ["aws:password:AIDAUSER2"] }

/-- C4 counterexample: a whitelisted inactive credential is skipped before
execution (no provider call) but is NOT counted under `kept`: `kept` is fixed
as `total - inactives.len()` before the whitelist check, so the single
whitelisted Delete-worthy credential yields `kept = 0`, not `kept = 1` —
refuting "still counted under the kept counter". -/
theorem whitelisted_not_counted_as_kept :
    wlConfig.whitelist.contains staleCred.whitelist_key = true ∧
    (get_credentials providerAllOk wlConfig 100 [staleCred]).1.kept = 0 ∧
    (get_credentials providerAllOk wlConfig 100 [staleCred]).1.total = 1 ∧
    (get_credentials providerAllOk wlConfig 100 [staleCred]).1.disabled = 0 ∧
    (get_credentials providerAllOk wlConfig 100 [staleCred]).1.deleted = 0 ∧
    (get_credentials providerAllOk wlConfig 100 [staleCred]).2 = [] := by
  refine ⟨by decide, by decide, by decide, by decide, by decide, by decide⟩

/-- C4 (amended): for every `InactiveCredential` whose canonical whitelist
key is in the configured whitelist, the execution step performs no provider
call and leaves the statistics accumulator unchanged (the credential is
skipped between resolution and execution, its classification untouched); it
contributes only to `total`, not to the `kept` counter. -/
theorem whitelisted_step_is_skipped (provider : Provider)
    (config : CredentialsConfig) (acc : CredentialStats × List Call)
    (ic : InactiveCredential)
    (h : config.whitelist.contains ic.credential.whitelist_key = true) :
    execStep provider config acc ic = acc := by
  obtain ⟨stats, calls⟩ := acc
  have h' : ic.credential.whitelist_key ∈ config.whitelist := by simpa using h
  simp [execStep, h']

/-- Witness for C4 (amended) at a concrete whitelisted credential. -/
theorem whitelisted_step_is_skipped_witness :
    execStep providerAllOk wlConfig
      ({ total := 1, kept := 0, disabled := 0, deleted := 0, failed := 0 }, [])
      { credential := staleCred, action := InactiveAction.Delete } =
      ({ total := 1, kept := 0, disabled := 0, deleted := 0, failed := 0 }, []) :=
  whitelisted_step_is_skipped providerAllOk wlConfig _
    { credential := staleCred, action := InactiveAction.Delete } (by decide)

/-- C5 counterexample: in dry-run mode the flagged credential does NOT
contribute to `disabled`/`deleted` as it would in apply mode: the same
Delete-worthy credential yields `deleted = 1` in apply mode but `deleted = 0`
in dry-run mode (while indeed no provider call is made). -/
theorem dry_run_counters_differ_from_apply :
    (get_credentials providerAllOk dryConfig 100 [staleCred]).1.deleted = 0 ∧
    (get_credentials providerAllOk dryConfig 100 [staleCred]).2 = [] ∧
    (get_credentials providerAllOk applyConfig 100 [staleCred]).1.deleted = 1 := by
  refine ⟨by decide, by decide, by decide⟩

/-- In dry-run mode a single execution step is a no-op on the accumulator. -/
theorem execStep_dry_eq (provider : Provider) (config : CredentialsConfig)
    (h : config.actions_enabled = false) (acc : CredentialStats × List Call)
    (ic : InactiveCredential) : execStep provider config acc ic = acc := by
  obtain ⟨stats, calls⟩ := acc
  simp [execStep, h]

/-- In dry-run mode the whole execution loop is a no-op on the accumulator. -/
theorem foldl_execStep_dry (provider : Provider) (config : CredentialsConfig)
    (h : config.actions_enabled = false) :
    ∀ (ics : List InactiveCredential) (acc : CredentialStats × List Call),
      ics.foldl (execStep provider config) acc = acc
  | [], _ => rfl
  | ic :: rest, acc => by
      rw [List.foldl_cons, execStep_dry_eq provider config h acc ic,
        foldl_execStep_dry provider config h rest acc]

/-- C5 (amended): in dry-run mode (`actions_enabled = false`) no provider
call is performed for any credential and the run returns the initial
statistics unchanged: `total` is the batch size, `kept = total - |inactives|`
exactly as in apply mode, but `disabled`, `deleted` and `failed` stay 0 —
flagged credentials are not added to the `disabled`/`deleted` counters. -/
theorem dry_run_no_calls_init_stats (provider : Provider)
    (config : CredentialsConfig) (now : Int) (credentials : List Credential)
    (h : config.actions_enabled = false) :
    get_credentials provider config now credentials =
      ({ total := credentials.length
         kept := credentials.length -
           (identify_inactive credentials now (mk_inactive_spec config)).length
         disabled := 0
         deleted := 0
         failed := 0 }, []) := by
  simp only [get_credentials]
  rw [foldl_execStep_dry provider config h]

/-- Witness for C5 (amended) at a concrete one-credential batch. -/
theorem dry_run_no_calls_init_stats_witness :
    get_credentials providerAllOk dryConfig 100 [staleCred] =
      ({ total := 1
         kept := 1 - (identify_inactive [staleCred] 100
           (mk_inactive_spec dryConfig)).length
         disabled := 0
         deleted := 0
         failed := 0 }, []) :=
  dry_run_no_calls_init_stats providerAllOk dryConfig 100 [staleCred] (by decide)

/-- An invalid configuration: delete threshold (60) below disable threshold
(180). -/
def badConfig : CredentialsConfig :=
  { disable_threshold_days := 180
    delete_threshold_days := 60
    actions_enabled := false
    whitelist := [] }

/-- C8 counterexample: `InactiveSpec` construction performs no validation
and cannot fail: from a config with `delete (60) ≤ disable (180)` it
successfully produces a spec violating the claimed invariant
`delete > disable ≥ 0`, and classification then runs with it (a credential
with `since = 100` is classified `Delete`). -/
theorem inactive_spec_no_validation :
    (mk_inactive_spec badConfig).delete_threshold_days ≤
      (mk_inactive_spec badConfig).disable_threshold_days ∧
    (sampleCred (some 0)).inactive_action 100 (mk_inactive_spec badConfig) =
      InactiveAction.Delete := by
  refine ⟨by decide, by decide⟩

/-- A single execution step never changes `total` or `kept`. -/
theorem execStep_preserves_total_kept (provider : Provider)
    (config : CredentialsConfig) (acc : CredentialStats × List Call)
    (ic : InactiveCredential) :
    (execStep provider config acc ic).1.total = acc.1.total ∧
    (execStep provider config acc ic).1.kept = acc.1.kept := by
  obtain ⟨stats, calls⟩ := acc
  simp only [execStep]
  split_ifs <;> first
    | exact ⟨rfl, rfl⟩
    | (cases ic.action <;> exact ⟨rfl, rfl⟩)

/-- The execution loop never changes `total` or `kept`. -/
theorem foldl_execStep_preserves_total_kept (provider : Provider)
    (config : CredentialsConfig) :
    ∀ (ics : List InactiveCredential) (acc : CredentialStats × List Call),
      ((ics.foldl (execStep provider config) acc).1.total = acc.1.total) ∧
      ((ics.foldl (execStep provider config) acc).1.kept = acc.1.kept)
  | [], _ => ⟨rfl, rfl⟩
  | ic :: rest, acc => by
      rw [List.foldl_cons]
      have h1 := foldl_execStep_preserves_total_kept provider config rest
        (execStep provider config acc ic)
      have h2 := execStep_preserves_total_kept provider config acc ic
      exact ⟨h1.1.trans h2.1, h1.2.trans h2.2⟩

/-- C8 (amended): no configuration is ever rejected. `InactiveSpec`
construction is a plain copy of the config thresholds with no failure path,
so any thresholds — including `delete ≤ disable` or negative values — are
accepted, classification runs with them, and the full run still returns
statistics with `total` equal to the batch size. -/
theorem run_accepts_any_thresholds (provider : Provider)
    (config : CredentialsConfig) (now : Int) (credentials : List Credential) :
    mk_inactive_spec config =
      { disable_threshold_days := config.disable_threshold_days
        delete_threshold_days := config.delete_threshold_days } ∧
    (get_credentials provider config now credentials).1.total =
      credentials.length := by
  refine ⟨rfl, ?_⟩
  simp only [get_credentials]
  exact (foldl_execStep_preserves_total_kept provider config _ _).1

/-- The six `(service, kind, action)` rows of `apply`'s match that perform a
provider operation. -/
def sixRows : List (Service × CredentialKind × InactiveAction) :=
  [(Service.Aws, CredentialKind.ApiKey, InactiveAction.Disable),
   (Service.Aws, CredentialKind.ApiKey, InactiveAction.Delete),
   (Service.Aws, CredentialKind.Password, InactiveAction.Disable),
   (Service.Aws, CredentialKind.Password, InactiveAction.Delete),
   (Service.Duo, CredentialKind.TwoFA, InactiveAction.Disable),
   (Service.Duo, CredentialKind.TwoFA, InactiveAction.Delete)]

/-- C10: `apply` and `dry_run` are total. For every `(service, kind, action)`
combination outside the six provider-operation rows — any `Keep` action,
`(Aws, TwoFA, _)`, `(Duo, Password/ApiKey, _)` — `apply` hits the
`_ => Ok(())` catch-all: it performs no provider call and returns `Ok(())`;
`dry_run` performs no call and returns `Ok(())` unconditionally. -/
theorem executor_totality (provider : Provider) (ic : InactiveCredential)
    (h : (ic.credential.service, ic.credential.kind, ic.action) ∉ sixRows) :
    applyOp ic.credential.service ic.credential.kind ic.action = none ∧
    ic.apply provider = ([], true) ∧
    ic.dry_run = ([], true) := by
  obtain ⟨⟨s, id, un, k, st, lu, li⟩, a⟩ := ic
  cases s <;> cases k <;> cases a <;>
    simp_all [sixRows, applyOp, InactiveCredential.apply, InactiveCredential.dry_run]

/-- Whether a resolved credential survives the whitelist filter. -/
def surviving (config : CredentialsConfig) (ic : InactiveCredential) : Bool :=
  !(config.whitelist.contains ic.credential.whitelist_key)

/-- Whether `apply` would return an `Err` for this credential under the given
provider oracle (false whenever no provider call is made). -/
def callFails (provider : Provider) (ic : InactiveCredential) : Bool :=
  match applyOp ic.credential.service ic.credential.kind ic.action with
  | none => false
  | some op => !(provider op ic.credential.id ic.credential.user_name)

/-- The provider calls the execution loop performs over a list of resolved
credentials: the calls of `apply` for each survivor, in order. -/
def callsOf (provider : Provider) (config : CredentialsConfig) :
    List InactiveCredential → List Call
  | [] => []
  | ic :: rest =>
      (if surviving config ic then (ic.apply provider).1 else []) ++
        callsOf provider config rest

/-- Characterization of one apply-mode execution step: a skipped (whitelisted)
credential changes nothing; a survivor performs `apply`'s calls and bumps
exactly one of failed/disabled/deleted. -/
theorem execStep_apply_char (provider : Provider) (config : CredentialsConfig)
    (h : config.actions_enabled = true) (stats : CredentialStats)
    (calls : List Call) (ic : InactiveCredential) :
    execStep provider config (stats, calls) ic =
      ({ stats with
          failed := stats.failed +
            (if surviving config ic && callFails provider ic then 1 else 0)
          disabled := stats.disabled +
            (if surviving config ic && !callFails provider ic &&
              ic.action == InactiveAction.Disable then 1 else 0)
          deleted := stats.deleted +
            (if surviving config ic && !callFails provider ic &&
              ic.action == InactiveAction.Delete then 1 else 0) },
       calls ++ (if surviving config ic then (ic.apply provider).1 else [])) := by
  obtain ⟨t, kp, db, dl, fl⟩ := stats
  by_cases hw : ic.credential.whitelist_key ∈ config.whitelist
  · simp [execStep, surviving, hw]
  · cases hao : applyOp ic.credential.service ic.credential.kind ic.action with
    | none =>
        have hk : callFails provider ic = false := by simp [callFails, hao]
        cases ha : ic.action <;>
          · simp_all [execStep, InactiveCredential.apply, surviving, hao, ha]
            decide
    | some op =>
        cases hp : provider op ic.credential.id ic.credential.user_name <;>
          · have hk : callFails provider ic = !(provider op ic.credential.id
              ic.credential.user_name) := by simp [callFails, hao]
            cases ha : ic.action <;>
              · simp_all [execStep, InactiveCredential.apply, surviving, hao, ha]
                try decide

/-- Apply-mode execution loop counts: failures, disables and deletes are
counted per surviving credential, independently and without aborting — a
failed call adds one to `failed` while all other credentials are still
processed and counted; the calls performed are exactly the survivors'. -/
theorem foldl_execStep_apply (provider : Provider) (config : CredentialsConfig)
    (h : config.actions_enabled = true) :
    ∀ (ics : List InactiveCredential) (stats : CredentialStats) (calls : List Call),
      ((ics.foldl (execStep provider config) (stats, calls)).1.failed =
        stats.failed + ics.countP
          (fun ic => surviving config ic && callFails provider ic)) ∧
      ((ics.foldl (execStep provider config) (stats, calls)).1.disabled =
        stats.disabled + ics.countP (fun ic => surviving config ic &&
          !callFails provider ic && ic.action == InactiveAction.Disable)) ∧
      ((ics.foldl (execStep provider config) (stats, calls)).1.deleted =
        stats.deleted + ics.countP (fun ic => surviving config ic &&
          !callFails provider ic && ic.action == InactiveAction.Delete)) ∧
      ((ics.foldl (execStep provider config) (stats, calls)).2 =
        calls ++ callsOf provider config ics)
  | [], stats, calls => by simp [callsOf]
  | ic :: rest, stats, calls => by
      rw [List.foldl_cons, execStep_apply_char provider config h stats calls ic]
      obtain ⟨ih1, ih2, ih3, ih4⟩ := foldl_execStep_apply provider config h rest
        { stats with
            failed := stats.failed +
              (if surviving config ic && callFails provider ic then 1 else 0)
            disabled := stats.disabled +
              (if surviving config ic && !callFails provider ic &&
                ic.action == InactiveAction.Disable then 1 else 0)
            deleted := stats.deleted +
              (if surviving config ic && !callFails provider ic &&
                ic.action == InactiveAction.Delete then 1 else 0) }
        (calls ++ (if surviving config ic then (ic.apply provider).1 else []))
      refine ⟨?_, ?_, ?_, ?_⟩
      · rw [ih1]
        simp only [List.countP_cons]
        split_ifs <;> (simp_all; try omega)
      · rw [ih2]
        simp only [List.countP_cons]
        split_ifs <;> (simp_all; try omega)
      · rw [ih3]
        simp only [List.countP_cons]
        split_ifs <;> (simp_all; try omega)
      · rw [ih4, List.append_assoc]
        rfl

/-- C6: in apply mode, for every surviving credential the executor performs
the provider call; on success it increments `disabled` or `deleted` according
to the action, on failure it increments `failed` and continues, so the run
always completes with every surviving credential counted in exactly one of
the three counters and all survivors' provider calls performed. -/
theorem apply_mode_counts (provider : Provider) (config : CredentialsConfig)
    (now : Int) (credentials : List Credential)
    (h : config.actions_enabled = true) :
    ((get_credentials provider config now credentials).1.failed =
      (identify_inactive credentials now (mk_inactive_spec config)).countP
        (fun ic => surviving config ic && callFails provider ic)) ∧
    ((get_credentials provider config now credentials).1.disabled =
      (identify_inactive credentials now (mk_inactive_spec config)).countP
        (fun ic => surviving config ic && !callFails provider ic &&
          ic.action == InactiveAction.Disable)) ∧
    ((get_credentials provider config now credentials).1.deleted =
      (identify_inactive credentials now (mk_inactive_spec config)).countP
        (fun ic => surviving config ic && !callFails provider ic &&
          ic.action == InactiveAction.Delete)) ∧
    ((get_credentials provider config now credentials).2 =
      callsOf provider config
        (identify_inactive credentials now (mk_inactive_spec config))) := by
  obtain ⟨h1, h2, h3, h4⟩ := foldl_execStep_apply provider config h
    (identify_inactive credentials now (mk_inactive_spec config))
    { total := credentials.length
      kept := credentials.length -
        (identify_inactive credentials now (mk_inactive_spec config)).length
      disabled := 0
      deleted := 0
      failed := 0 }
    []
  exact ⟨by simpa using h1, by simpa using h2, by simpa using h3, by simpa using h4⟩

/-- A third AWS password credential, inactive enough to warrant Disable. -/
def disableCred : Credential :=
  { service := Service.Aws
    id := "AIDAUSER3"
    user_name := "carol"
    kind := CredentialKind.Password
    state := CredentialStatus.Unknown
    last_used := some 10
    linked_id := none }

/-- A provider oracle failing exactly the calls for credential id
"AIDAUSER2". -/
def providerFailUser2 : Provider := fun _ id _ => !(id == "AIDAUSER2")

/-- Witness for C6: three flagged credentials, one provider failure →
`failed = 1`, the other two counted under `deleted`/`disabled`, and all
three provider calls were attempted. -/
theorem apply_mode_counts_witness :
    ((get_credentials providerFailUser2 applyConfig 100
      [sampleCred (some (-200)), staleCred, disableCred]).1.failed = 1) ∧
    ((get_credentials providerFailUser2 applyConfig 100
      [sampleCred (some (-200)), staleCred, disableCred]).1.deleted = 1) ∧
    ((get_credentials providerFailUser2 applyConfig 100
      [sampleCred (some (-200)), staleCred, disableCred]).1.disabled = 1) ∧
    ((get_credentials providerFailUser2 applyConfig 100
      [sampleCred (some (-200)), staleCred, disableCred]).2.length = 3) := by
  obtain ⟨h1, h2, h3, h4⟩ := apply_mode_counts providerFailUser2 applyConfig 100
    [sampleCred (some (-200)), staleCred, disableCred] (by decide)
  refine ⟨h1.trans (by decide), h3.trans (by decide), h2.trans (by decide), ?_⟩
  rw [h4]
  decide

/-- An (Aws, TwoFA, Disable) inactive credential, outside the six rows. -/
def awsTwoFAIC : InactiveCredential :=
  { credential :=
      { service := Service.Aws
        id := "AIDAUSER7"
        user_name := "dora"
        kind := CredentialKind.TwoFA
        state := CredentialStatus.Enabled
        last_used := some 0
        linked_id := none }
    action := InactiveAction.Disable }

/-- Witness for C10 at the concrete (Aws, TwoFA, Disable) combination. -/
theorem executor_totality_witness :
    applyOp awsTwoFAIC.credential.service awsTwoFAIC.credential.kind
      awsTwoFAIC.action = none ∧
    awsTwoFAIC.apply providerAllOk = ([], true) ∧
    awsTwoFAIC.dry_run = ([], true) :=
  executor_totality providerAllOk awsTwoFAIC (by
    intro hmem
    simp [sixRows, awsTwoFAIC] at hmem)

end Ceres
